import Mathlib

/-!
Verification of the products-management repository (browser-resident inventory
tracker). The core operations — product-code allocation, record store CRUD,
image resize dimensioning, the filter/sort engine, JSON import and CSV export —
are shallowly embedded below and their specified properties proved.

JavaScript numbers that the claims exercise are modelled as exact rationals
(`Rat`) or integers (`Int`); strings as Lean `String`; binary blobs as byte
lists. The Dexie/IndexedDB store implementation is not part of the repository
sources, so its operations are modelled from the specification (§4.2), as
marked on each such definition.
-/

namespace ProductsMgmt

/-- Binary payloads (Blob contents) are modelled as their byte lists. -/
abbrev Blob := List Nat

/-- The decimal digit character for `n < 10`, as JavaScript renders digits. -/
def digitChar (n : Nat) : Char := Char.ofNat (48 + n)

/-- Fuelled decimal rendering of a natural number (most significant digit first).
Models the JavaScript `String(n)` conversion for non-negative integers; the fuel
is always called with at least `n + 1`, which suffices. -/
def natDecAux : Nat → Nat → List Char
  | 0, _ => []
  | fuel + 1, n =>
      if n < 10 then [digitChar n] else natDecAux fuel (n / 10) ++ [digitChar (n % 10)]

/-- Decimal digit characters of `n`. -/
def natDecChars (n : Nat) : List Char := natDecAux (n + 1) n

/-- JavaScript `String(n)` for a non-negative integer. -/
def natDec (n : Nat) : String := (natDecChars n).asString

/-- JavaScript `String(i)` for an integer value. -/
def intDec (i : Int) : String := if i < 0 then "-" ++ natDec i.natAbs else natDec i.toNat

/-- The whitespace characters JavaScript's number parsing skips. -/
def jsWS (c : Char) : Bool := c == ' ' || c == '\t' || c == '\n' || c == '\r'

/-- Value of the longest leading run of decimal digits; `none` when there is no
digit (JavaScript `parseInt` yields NaN there). -/
def digitsVal (cs : List Char) : Option Nat :=
  let ds := cs.takeWhile Char.isDigit
  if ds.isEmpty then none else some (ds.foldl (fun a c => 10 * a + (c.toNat - 48)) 0)

/-- JavaScript `parseInt(s) || 0`: leading whitespace skipped, an optional sign,
then the longest digit prefix; NaN (no digit) collapses to 0 under `|| 0`, as
does a genuine parse of 0. -/
def jsParseIntOr0 (s : String) : Int :=
  match s.toList.dropWhile (fun c => jsWS c) with
  | '-' :: rest => match digitsVal rest with | none => 0 | some v => -(v : Int)
  | '+' :: rest => match digitsVal rest with | none => 0 | some v => (v : Int)
  | cs => match digitsVal cs with | none => 0 | some v => (v : Int)

/-- JavaScript `parseFloat` on the decimal strings a numeric form field produces
(optional sign, integer part, optional fraction part). Strings outside this
grammar, which the numeric form controls never emit, fall back to 0 instead of
NaN; no claim exercises them. -/
def jsParseFloatQ (s : String) : Rat :=
  let signed : Rat × List Char :=
    match s.toList.dropWhile (fun c => jsWS c) with
    | '-' :: rest => (-1, rest)
    | '+' :: rest => (1, rest)
    | cs => (1, cs)
  let cs := signed.2
  let ip := cs.takeWhile Char.isDigit
  let ipv : Nat := ip.foldl (fun a c => 10 * a + (c.toNat - 48)) 0
  match cs.dropWhile Char.isDigit with
  | '.' :: fr =>
      let fd := fr.takeWhile Char.isDigit
      let fv : Nat := fd.foldl (fun a c => 10 * a + (c.toNat - 48)) 0
      signed.1 * ((ipv : Rat) + (fv : Rat) / ((10 : Rat) ^ fd.length))
  | _ => signed.1 * (ipv : Rat)

/-- JavaScript `s.padStart(k, c)`. -/
def padStart (k : Nat) (c : Char) (s : String) : String :=
  (List.replicate (k - s.length) c).asString ++ s

/-- JavaScript `s.toLowerCase()` (ASCII-adequate model). -/
def jsToLower (s : String) : String := s.map Char.toLower

/-- JavaScript `s.includes(t)`: `t` occurs as a contiguous substring of `s`. -/
def jsIncludes (s t : String) : Bool := decide (t.toList <:+: s.toList)

/-- Boolean prefix test on character lists. -/
def listIsPrefixB : List Char → List Char → Bool
  | [], _ => true
  | _ :: _, [] => false
  | a :: as, b :: bs => a == b && listIsPrefixB as bs

/-- JavaScript `s.startsWith(t)`. -/
def jsStartsWith (s t : String) : Bool := listIsPrefixB t.toList s.toList

/-- JavaScript `v || d` for an optional string: `undefined`, `null` and `""` are
all falsy. -/
def jsOrString (v : Option String) (d : String) : String :=
  match v with
  | none => d
  | some s => if s.isEmpty then d else s

/-- Insert a comma after every three characters of a reversed digit list
(helper for thousands grouping). -/
def groupRev : List Char → List Char
  | a :: b :: c :: d :: rest => a :: b :: c :: ',' :: groupRev (d :: rest)
  | l => l

/-- Thousands-grouping of a digit string, as `Number.prototype.toLocaleString`
renders an integer part. -/
def groupDigits (s : String) : String := ((groupRev s.toList.reverse).reverse).asString

/-- JavaScript `n.toLocaleString()` in a comma-grouping locale: thousands
separators in the integer part; at most three fraction digits, rounded half
away from zero, with trailing zeros dropped. -/
def jsToLocaleString (q : Rat) : String :=
  let sign := if q < 0 then "-" else ""
  let den := q.den
  let numAbs := q.num.natAbs
  let ip : Nat := numAbs / den
  let fracNum : Nat := numAbs % den
  let mRaw : Nat := (2000 * fracNum + den) / (2 * den)
  let ipFinal : Nat := if mRaw = 1000 then ip + 1 else ip
  let m : Nat := if mRaw = 1000 then 0 else mRaw
  let fr3 : List Char := List.replicate (3 - (natDecChars m).length) '0' ++ natDecChars m
  let frKept : List Char := (fr3.reverse.dropWhile (fun c => c == '0')).reverse
  let frPart : String := if frKept.isEmpty then "" else "." ++ frKept.asString
  sign ++ groupDigits (natDec ipFinal) ++ frPart

/-- A Product record (src/types/product.ts): the scalar fields plus the optional
binary image payload. The ephemeral display-only `imageUrl`, never part of the
authoritative record, is omitted. `price` is the JS number as an exact
rational; `quantity` is absent or an integer. -/
structure Product where
  purchasedAt : String
  productCode : String
  name : String
  price : Rat
  quantity : Option Int
  currency : Option String
  image : Option Blob
deriving DecidableEq

/-- generateProductCode (src/components/ProductModal.tsx, lines 30-61): the next
product code for `date`, computed from the same-date records. The Dexie query
`where('purchasedAt').equals(date)` is modelled as a filter over the stored
record list; the fold has base 0, so non-numeric codes (parsed to 0 by
`parseInt(...) || 0`) and the empty starting maximum coincide. -/
def generateProductCode (date : String) (store : List Product) : String :=
  let sameDateProducts := store.filter (fun p => p.purchasedAt == date)
  if sameDateProducts.isEmpty then "001"
  else
    let maxCode := sameDateProducts.foldl (fun m p => max m (jsParseIntOr0 p.productCode)) 0
    padStart 3 '0' (intDec (maxCode + 1))

/-- Modelled from the spec (§4.2): the persistent record store (the Dexie/
IndexedDB implementation is not under src/) holds Product records keyed by an
integer id. -/
abbrev Store := List (Int × Product)

/-- The store's error for an update of an absent id (spec §7 taxonomy). -/
inductive DbErr where
  | notFound
deriving DecidableEq

/-- Modelled from the spec: `update(id, record)` of §4.2 — fails with
NotFoundError when the id is absent, otherwise fully replaces the stored
record with the given one. Used by the save flow (handleSave,
src/app/page.tsx lines 104-117). -/
def dbUpdate (i : Int) (r : Product) : Store → Except DbErr Store
  | [] => .error .notFound
  | e :: rest =>
      if e.1 = i then .ok ((i, r) :: rest)
      else (dbUpdate i r rest).map (fun s => e :: s)

/-- The record stored under id `i`, if any. -/
def dbLookup (i : Int) (s : Store) : Option Product :=
  (s.find? (fun e => e.1 == i)).map (·.2)

/-- resizeAndCompressImage (src/utils/imageUtils.ts, lines 142-173): the
target-dimension computation, with dimensions as exact rationals. Source:
`if (width > height && width > MAX_SIZE) { height = height*MAX_SIZE/width;
width = MAX_SIZE } else if (height > MAX_SIZE) { width = width*MAX_SIZE/height;
height = MAX_SIZE }` with MAX_SIZE = 1200. Returns (width, height). -/
def resizeDims (width height : Rat) : Rat × Rat :=
  if width > height ∧ width > 1200 then (1200, height * 1200 / width)
  else if height > 1200 then (width * 1200 / height, 1200)
  else (width, height)

/-- The filter/sort effect over the loaded records (src/app/page.tsx, lines
62-101): substring search on code or name, inclusive date bounds, then a sort
selected by `sortOrder`. JavaScript's `Array.prototype.sort` is stable, and a
stable comparator sort is modelled by insertion sort on the non-strict relation
`comparator a b ≤ 0`; the default comparator branch returns 0, i.e. the
all-true relation. -/
def applyQuery (records : List Product) (searchQuery dateFrom dateTo sortOrder : String) :
    List Product :=
  let f1 := if searchQuery.isEmpty then records else
    records.filter (fun p =>
      jsIncludes (jsToLower p.productCode) (jsToLower searchQuery) ||
      jsIncludes (jsToLower p.name) (jsToLower searchQuery))
  let f2 := if dateFrom.isEmpty then f1 else
    f1.filter (fun p => decide (dateFrom ≤ p.purchasedAt))
  let f3 := if dateTo.isEmpty then f2 else
    f2.filter (fun p => decide (p.purchasedAt ≤ dateTo))
  match sortOrder with
  | "purchasedAtDesc" => f3.insertionSort (fun a b => b.purchasedAt ≤ a.purchasedAt)
  | "priceAsc" => f3.insertionSort (fun a b => a.price ≤ b.price)
  | "priceDesc" => f3.insertionSort (fun a b => b.price ≤ a.price)
  | _ => f3.insertionSort (fun _ _ => True)

/-- The JSON value found in an import element's `image` field: absent, a string,
or some other (truthy) JSON value. -/
inductive JsonImage where
  | missing
  | str (s : String)
  | other
deriving DecidableEq

/-- One element of an imported JSON array (handleImportJSON,
src/app/page.tsx lines 252-329). -/
structure ImportItem where
  id : Option Int
  purchasedAt : String
  productCode : String
  name : String
  price : Rat
  quantity : Option Int
  currency : Option String
  image : JsonImage
deriving DecidableEq

/-- The image conversion inside the import loop: a truthy string value starting
with "data:" is decoded back to a Blob (the `fetch`-and-`blob` of the data URL
is the abstract `decode` parameter); every other value leaves the image null. -/
def convertImageField (decode : String → Blob) : JsonImage → Option Blob
  | .str s =>
      if s == "" then none
      else if jsStartsWith s "data:" then some (decode s) else none
  | _ => none

/-- The record built from one import element in the loop body: image decoded per
`convertImageField`, currency defaulted to the home currency "JPY". -/
def convertItem (decode : String → Blob) (it : ImportItem) : Product :=
  { purchasedAt := it.purchasedAt
    productCode := it.productCode
    name := it.name
    price := it.price
    quantity := it.quantity
    currency := some (jsOrString it.currency "JPY")
    image := convertImageField decode it.image }

/-- Modelled from the spec (§4.2): the fresh unique id the store assigns when a
record is added without one (auto-increment above every existing key). -/
def freshId (s : Store) : Int := (s.map Prod.fst).foldl max 0 + 1

/-- Modelled from the spec (§4.2, §4.5): `add` — with an explicit id the record
is stored under that id, otherwise under a fresh store-assigned id. -/
def storeAdd (s : Store) (explicitId : Option Int) (p : Product) : Store :=
  match explicitId with
  | some i => s ++ [(i, p)]
  | none => s ++ [(freshId s, p)]

/-- JavaScript truthiness of the import element's `id` field as tested by
`if (item.id)`: absence and 0 are falsy. -/
def truthyId : Option Int → Option Int
  | some i => if i = 0 then none else some i
  | none => none

/-- handleImportJSON (src/app/page.tsx, lines 252-329), the successful path: in
overwrite mode the store is cleared first and each element is added in order,
passing the element's id exactly when it is truthy; in append mode every
element is added to the existing store without an id. -/
def handleImportJSON (decode : String → Blob) (mode : Bool) (items : List ImportItem)
    (s : Store) : Store :=
  let s0 := if mode then [] else s
  items.foldl (fun st it =>
    storeAdd st (if mode then truthyId it.id else none) (convertItem decode it)) s0

/-- What the user is told after an import attempt: the completion alert, or the
one fixed generic failure alert ("インポートに失敗しました") carrying no
per-record detail. -/
inductive ImportOutcome where
  | success
  | genericFailure
deriving DecidableEq

/-- The record-by-record import loop together with its surrounding try/catch
(handleImportJSON, src/app/page.tsx lines 277-328): each element is converted
and added by the fallible `addOp` (the store add — modelled abstractly, as the
store implementation is not under src/); no per-record handler exists, so the
first failure aborts the loop, keeps the store state already reached, and the
catch shows the single generic alert. -/
def runImportLoop (addOp : ImportItem → Store → Except Unit Store) :
    List ImportItem → Store → Store × ImportOutcome
  | [], st => (st, .success)
  | it :: rest, st =>
      match addOp it st with
      | .error _ => (st, .genericFailure)
      | .ok st' => runImportLoop addOp rest st'

/-- Sequential run of the fallible add over a list, propagating the first
failure (the loop of handleImportJSON without its catch). -/
def runSeq (addOp : ImportItem → Store → Except Unit Store) :
    List ImportItem → Store → Except Unit Store
  | [], st => .ok st
  | it :: rest, st =>
      match addOp it st with
      | .error e => .error e
      | .ok st' => runSeq addOp rest st'

/-- CSV escaping of the name cell (handleExportCSV, src/app/page.tsx):
`"${product.name.replace(/"/g, '""')}"`. -/
def csvEscapeName (s : String) : String :=
  "\"" ++ (s.toList.foldr
    (fun c acc => if c = '"' then '"' :: '"' :: acc else c :: acc) []).asString ++ "\""

/-- The quantity cell: `product.quantity || ""` — absence and 0 are both falsy
and render as the empty string. -/
def quantityCell (q : Option Int) : String :=
  match q with
  | none => ""
  | some n => if n = 0 then "" else intDec n

/-- The currency cell: `product.currency || "JPY"`. -/
def currencyCell (c : Option String) : String := jsOrString c "JPY"

/-- One CSV data row (handleExportCSV, src/app/page.tsx lines 332-376): the six
cells joined by commas, the name CSV-escaped, the locale-grouped price wrapped
in quotes. -/
def csvRow (p : Product) : String :=
  String.intercalate ","
    [p.purchasedAt, p.productCode, csvEscapeName p.name, quantityCell p.quantity,
     "\"" ++ jsToLocaleString p.price ++ "\"", currencyCell p.currency]

/-- The fixed CSV header row (purchase date, product code, name, quantity,
price, currency). -/
def csvHeaderRow : String := "仕入れ日,商品番号,商品名,個数,価格,通貨"

/-- The full CSV file content: the byte-order mark, then the header row and one
row per record, joined by newlines. -/
def csvFile (ps : List Product) : String :=
  "\uFEFF" ++ String.intercalate "\n" (csvHeaderRow :: ps.map csvRow)

/-- The modal form state (src/components/ProductModal.tsx): each field is the
raw string contents of its form control. -/
structure FormState where
  purchasedAt : String
  productCode : String
  name : String
  price : String
  quantity : String
  currency : String
deriving DecidableEq

/-- An uploaded file, reduced to its bytes. -/
structure JsFile where
  bytes : List Nat
deriving DecidableEq

/-- The product-code normalization in handleSubmit
(src/components/ProductModal.tsx, lines 141-154):
`formData.productCode ? String(parseInt(formData.productCode) || 0).padStart(3, "0") : "001"`. -/
def normalizedProductCode (code : String) : String :=
  if code.isEmpty then "001" else padStart 3 '0' (intDec (jsParseIntOr0 code))

/-- handleSubmit (src/components/ProductModal.tsx, lines 128-164): the record
handed to onSave and stored. A newly chosen file is resized and compressed
(`resize` abstracts resizeAndCompressImage); otherwise an editing session keeps
the existing product's stored image. The numeric form fields are parsed from
their strings; NaN-producing inputs, which the numeric controls never emit,
are outside the model. -/
def handleSubmitRecord (resize : JsFile → Blob) (form : FormState)
    (imageFile : Option JsFile) (product : Option Product) : Product :=
  let imageBlob : Option Blob :=
    match imageFile with
    | some f => some (resize f)
    | none =>
        match product with
        | some p => p.image
        | none => none
  { purchasedAt := form.purchasedAt
    productCode := normalizedProductCode form.productCode
    name := form.name
    price := jsParseFloatQ form.price
    quantity := if form.quantity.isEmpty then none else some (jsParseIntOr0 form.quantity)
    currency := some form.currency
    image := imageBlob }

/-- A scalar-only record used by concrete witnesses. -/
def sampleProduct (d c : String) : Product :=
  { purchasedAt := d, productCode := c, name := "item", price := 1,
    quantity := none, currency := some "JPY", image := none }

instance purchasedAtDescTotal :
    IsTotal Product (fun a b => b.purchasedAt ≤ a.purchasedAt) :=
  ⟨fun a b => le_total b.purchasedAt a.purchasedAt⟩

instance purchasedAtDescTrans :
    IsTrans Product (fun a b => b.purchasedAt ≤ a.purchasedAt) :=
  ⟨fun _ _ _ hab hbc => le_trans hbc hab⟩

/-- An import element carrying `id: 0` (a present id field), used to test the
truthiness check `if (item.id)`. -/
def importItemIdZero : ImportItem :=
  { id := some 0, purchasedAt := "2024-01-01", productCode := "001", name := "x",
    price := 1, quantity := none, currency := none, image := .missing }

/-- A concrete fallible add for the C6 witness: fails exactly on the record
named "bad", otherwise appends under id 1. -/
def addOpW : ImportItem → Store → Except Unit Store :=
  fun it st =>
    if it.name == "bad" then .error ()
    else .ok (st ++ [(1, convertItem (fun _ => []) it)])

/-- A benign import element for the C6 witness. -/
def itemGood : ImportItem :=
  { id := none, purchasedAt := "2024-01-02", productCode := "001", name := "good",
    price := 2, quantity := none, currency := none, image := .missing }

/-- The record of the spec's CSV scenario. -/
def csvScenarioRecord : Product :=
  { purchasedAt := "2024-03-01", productCode := "001", name := "A\"B", price := 1500,
    quantity := some 2, currency := some "USD", image := none }

/-- A form whose (read-only, allocator-filled) code field holds four digits, as
happens once a date has more than 999 products. -/
def formFourDigits : FormState :=
  { purchasedAt := "2024-03-01", productCode := "1234", name := "x", price := "10",
    quantity := "", currency := "JPY" }

/-- A form with an empty code field, and one with code "7", for the C8 witness. -/
def formEmptyCode : FormState :=
  { purchasedAt := "2024-03-01", productCode := "", name := "x", price := "10",
    quantity := "", currency := "JPY" }

/-! ## Helper lemmas on the JavaScript primitive models -/

theorem isDigit_digitChar {d : Nat} (hd : d < 10) : (digitChar d).isDigit = true := by
  interval_cases d <;> decide

theorem natDecAux_all_isDigit : ∀ fuel n, (natDecAux fuel n).all Char.isDigit = true
  | 0, _ => rfl
  | fuel + 1, n => by
    by_cases h : n < 10
    · simp [natDecAux, h, isDigit_digitChar h]
    · have h10 : n % 10 < 10 := Nat.mod_lt _ (by norm_num)
      simp [natDecAux, h, natDecAux_all_isDigit fuel (n / 10), isDigit_digitChar h10]

theorem natDecAux_length_le : ∀ fuel n k, n < fuel → n < 10 ^ k → 1 ≤ k →
    (natDecAux fuel n).length ≤ k
  | 0, n, _ => fun h _ _ => absurd h (Nat.not_lt_zero n)
  | fuel + 1, n, k => fun hf hk hk1 => by
    by_cases h : n < 10
    · simpa [natDecAux, h] using hk1
    · have hn10 : 10 ≤ n := Nat.not_lt.mp h
      have hk2 : 2 ≤ k := by
        by_contra hlt
        have hk1' : k = 1 := by omega
        subst hk1'
        simp at hk
        omega
      have hdiv_fuel : n / 10 < fuel := by
        have := Nat.div_lt_self (show 0 < n by omega) (show 1 < 10 by norm_num)
        omega
      have hdiv_pow : n / 10 < 10 ^ (k - 1) := by
        rw [Nat.div_lt_iff_lt_mul (show 0 < 10 by norm_num)]
        calc n < 10 ^ k := hk
          _ = 10 ^ (k - 1) * 10 := by
              rw [← pow_succ]
              congr 1
              omega
      have ih := natDecAux_length_le fuel (n / 10) (k - 1) hdiv_fuel hdiv_pow (by omega)
      simp only [natDecAux, h, if_false, List.length_append, List.length_singleton]
      omega

theorem natDec_length_le_three {n : Nat} (h : n < 1000) : (natDec n).length ≤ 3 :=
  natDecAux_length_le (n + 1) n 3 (Nat.lt_succ_self n) (by simpa using h) (by norm_num)

theorem natDec_all_isDigit (n : Nat) : (natDec n).data.all Char.isDigit = true :=
  natDecAux_all_isDigit (n + 1) n

theorem intDec_of_nonneg {v : Int} (h : 0 ≤ v) : intDec v = natDec v.toNat := by
  simp [intDec, not_lt.mpr h]

theorem padStart_data (k : Nat) (c : Char) (s : String) :
    (padStart k c s).data = List.replicate (k - s.length) c ++ s.data := rfl

theorem padStart_length_three {s : String} (h : s.length ≤ 3) :
    (padStart 3 '0' s).length = 3 := by
  have hl : (padStart 3 '0' s).length = (padStart 3 '0' s).data.length := rfl
  rw [hl, padStart_data, List.length_append, List.length_replicate]
  have hs : s.data.length = s.length := rfl
  rw [hs]
  omega

theorem padStart_all_isDigit {s : String} (h : s.data.all Char.isDigit = true) :
    (padStart 3 '0' s).data.all Char.isDigit = true := by
  rw [padStart_data, List.all_append, h, Bool.and_true]
  simp only [List.all_eq_true]
  intro c hc
  rw [List.eq_of_mem_replicate hc]
  decide

/-! ## C1: the product-code allocator -/

/-- C1: for every date `D`, `generateProductCode` returns "001" when the store
holds no record with `purchasedAt = D`, and otherwise the zero-padded (to at
least three digits) decimal of one plus the maximum of the same-date codes
parsed as integers — non-numeric and missing codes parsed to 0 by
`parseInt(...) || 0`, the fold over the parsed codes starting from that same
baseline 0, exactly as the source's `reduce(..., 0)` does. -/
theorem generateProductCode_spec (date : String) (store : List Product) :
    (store.filter (fun p => p.purchasedAt == date) = [] →
      generateProductCode date store = "001") ∧
    (store.filter (fun p => p.purchasedAt == date) ≠ [] →
      generateProductCode date store =
        padStart 3 '0' (intDec
          (((store.filter (fun p => p.purchasedAt == date)).map
              (fun p => jsParseIntOr0 p.productCode)).foldl max 0 + 1))) := by
  constructor
  · intro h
    simp [generateProductCode, h]
  · intro h
    cases hF : store.filter (fun p => p.purchasedAt == date) with
    | nil => exact absurd hF h
    | cons a l =>
      simp [generateProductCode, hF, List.foldl_map]

/-- C1 witness: the spec's scenario — two records dated 2024-01-05 with codes
"001" and "002" give next code "003" for that date and "001" for 2024-01-06. -/
theorem generateProductCode_spec_witness :
    generateProductCode "2024-01-05"
      [sampleProduct "2024-01-05" "001", sampleProduct "2024-01-05" "002"] = "003" ∧
    generateProductCode "2024-01-06"
      [sampleProduct "2024-01-05" "001", sampleProduct "2024-01-05" "002"] = "001" := by
  constructor
  · have h := (generateProductCode_spec "2024-01-05"
      [sampleProduct "2024-01-05" "001", sampleProduct "2024-01-05" "002"]).2 (by decide)
    rw [h]
    decide
  · exact (generateProductCode_spec "2024-01-06"
      [sampleProduct "2024-01-05" "001", sampleProduct "2024-01-05" "002"]).1 (by decide)

/-! ## C2: store update fails on absent id, otherwise fully replaces -/

/-- C2: `update(id, record)` fails with NotFoundError when no stored record has
that id; otherwise it succeeds and the resulting store holds exactly the given
record under that id (full replacement, no surviving fields) and is unchanged
at every other id. The store is modelled from spec §4.2 (its implementation is
not under src/). -/
theorem dbUpdate_spec (i : Int) (r : Product) (s : Store) :
    (dbLookup i s = none → dbUpdate i r s = .error .notFound) ∧
    (dbLookup i s ≠ none →
      ∃ s', dbUpdate i r s = .ok s' ∧ dbLookup i s' = some r ∧
        ∀ j, j ≠ i → dbLookup j s' = dbLookup j s) := by
  induction s with
  | nil => exact ⟨fun _ => rfl, fun h => absurd rfl h⟩
  | cons e rest ih =>
    by_cases he : e.1 = i
    · constructor
      · intro h
        rw [dbLookup, List.find?_cons_of_pos _ (by simp [he])] at h
        simp at h
      · intro _
        refine ⟨(i, r) :: rest, by simp [dbUpdate, he], ?_, ?_⟩
        · rw [dbLookup, List.find?_cons_of_pos _ (by simp)]
          rfl
        · intro j hj
          rw [dbLookup, List.find?_cons_of_neg _ (by simp [Ne.symm hj]),
            dbLookup, List.find?_cons_of_neg _ (by simp [he, Ne.symm hj])]
    · have hlook : dbLookup i (e :: rest) = dbLookup i rest := by
        rw [dbLookup, List.find?_cons_of_neg _ (by simp [he])]
        rfl
      constructor
      · intro h
        rw [hlook] at h
        simp only [dbUpdate, he, if_false, ih.1 h]
        rfl
      · intro h
        rw [hlook] at h
        obtain ⟨s', hok, hfound, hframe⟩ := ih.2 h
        refine ⟨e :: s', by simp only [dbUpdate, he, if_false, hok]; rfl, ?_, ?_⟩
        · rw [dbLookup, List.find?_cons_of_neg _ (by simp [he])]
          exact hfound
        · intro j hj
          by_cases hej : e.1 = j
          · rw [dbLookup, List.find?_cons_of_pos _ (by simp [hej]),
              dbLookup, List.find?_cons_of_pos _ (by simp [hej])]
          · rw [dbLookup, List.find?_cons_of_neg _ (by simp [hej]),
              dbLookup, List.find?_cons_of_neg _ (by simp [hej])]
            exact hframe j hj

/-- C2 witness: updating id 5 in the empty store fails with NotFoundError. -/
theorem dbUpdate_spec_witness :
    dbUpdate 5 (sampleProduct "2024-01-01" "001") [] = .error .notFound :=
  (dbUpdate_spec 5 (sampleProduct "2024-01-01" "001") []).1 rfl

/-! ## C3: resize dimension computation -/

/-- C3: for positive dimensions, `resizeDims` leaves an image whose longer side
is at most 1200 unchanged (no upscaling, and a 1200-long side is untouched);
when the longer side exceeds 1200 the result's longer side is exactly 1200 and
the sides stay proportional (`w' * h = h' * w`, exact rational arithmetic). -/
theorem resizeDims_spec (w h : Rat) (hw : 0 < w) (hh : 0 < h) :
    (max w h ≤ 1200 → resizeDims w h = (w, h)) ∧
    (1200 < max w h →
      max (resizeDims w h).1 (resizeDims w h).2 = 1200 ∧
      (resizeDims w h).1 * h = (resizeDims w h).2 * w) := by
  constructor
  · intro hle
    have hw1200 : w ≤ 1200 := le_trans (le_max_left _ _) hle
    have hh1200 : h ≤ 1200 := le_trans (le_max_right _ _) hle
    rw [resizeDims, if_neg (by rintro ⟨-, hgt⟩; exact absurd hgt (not_lt.mpr hw1200)),
      if_neg (not_lt.mpr hh1200)]
  · intro hgt
    by_cases h1 : w > h ∧ w > 1200
    · have hhw : h * 1200 / w ≤ 1200 := by
        rw [div_le_iff₀ hw]
        nlinarith [h1.1]
      constructor
      · simp only [resizeDims, if_pos h1]
        exact max_eq_left hhw
      · simp only [resizeDims, if_pos h1]
        field_simp
        ring
    · have hh1200 : 1200 < h := by
        rcases lt_or_le 1200 h with hc | hc
        · exact hc
        · have hw1200 : 1200 < w := by
            rcases max_cases w h with ⟨hm, _⟩ | ⟨hm, _⟩
            · rwa [hm] at hgt
            · rw [hm] at hgt
              linarith
          exact absurd ⟨lt_of_le_of_lt hc hw1200, hw1200⟩ h1
      have hwh : w ≤ h := by
        by_contra hc
        push_neg at hc
        exact h1 ⟨hc, lt_trans hh1200 hc⟩
      have hwle : w * 1200 / h ≤ 1200 := by
        rw [div_le_iff₀ hh]
        nlinarith
      constructor
      · simp only [resizeDims, if_neg h1, if_pos hh1200]
        exact max_eq_right hwle
      · simp only [resizeDims, if_neg h1, if_pos hh1200]
        field_simp
        ring

/-- C3 witness: an 800×600 image is untouched; a 1201×800 image gets longer
side exactly 1200. -/
theorem resizeDims_spec_witness :
    resizeDims 800 600 = (800, 600) ∧
    max (resizeDims 1201 800).1 (resizeDims 1201 800).2 = 1200 :=
  ⟨(resizeDims_spec 800 600 (by norm_num) (by norm_num)).1 (by norm_num),
    ((resizeDims_spec 1201 800 (by norm_num) (by norm_num)).2 (by norm_num)).1⟩

/-! ## C4: the filter/sort engine -/

theorem orderedInsert_true {α : Type} (x : α) :
    ∀ l : List α, l.orderedInsert (fun _ _ => True) x = x :: l
  | [] => rfl
  | _ :: _ => by simp [List.orderedInsert]

theorem insertionSort_true {α : Type} :
    ∀ l : List α, l.insertionSort (fun _ _ => True) = l
  | [] => rfl
  | b :: l => by
    rw [List.insertionSort, insertionSort_true l, orderedInsert_true]

theorem filter_orderedInsert_pos {α : Type} (r : α → α → Prop) [DecidableRel r]
    (q : α → Bool) (x : α) (hx : q x = true)
    (hcomp : ∀ y, ¬ r x y → q y = false) :
    ∀ l : List α, (l.orderedInsert r x).filter q = x :: l.filter q
  | [] => by simp [List.orderedInsert, hx]
  | y :: l => by
    by_cases hr : r x y
    · simp [List.orderedInsert, hr, hx]
    · have hy := hcomp y hr
      simp [List.orderedInsert, hr, hy, filter_orderedInsert_pos r q x hx hcomp l]

theorem filter_orderedInsert_neg {α : Type} (r : α → α → Prop) [DecidableRel r]
    (q : α → Bool) (x : α) (hx : q x = false) :
    ∀ l : List α, (l.orderedInsert r x).filter q = l.filter q
  | [] => by simp [List.orderedInsert, hx]
  | y :: l => by
    by_cases hr : r x y
    · simp [List.orderedInsert, hr, hx]
    · simp [List.orderedInsert, hr, List.filter_cons, filter_orderedInsert_neg r q x hx l]

/-- A stable sort does not reorder the elements of one tie class: filtering by a
predicate that only `r`-equivalent elements satisfy commutes with the sort. -/
theorem filter_insertionSort_eq {α : Type} (r : α → α → Prop) [DecidableRel r]
    (q : α → Bool) (hcomp : ∀ x y, q x = true → ¬ r x y → q y = false) :
    ∀ l : List α, (l.insertionSort r).filter q = l.filter q
  | [] => rfl
  | x :: l => by
    by_cases hx : q x = true
    · rw [List.insertionSort, filter_orderedInsert_pos r q x hx (fun y hy => hcomp x y hx hy),
        filter_insertionSort_eq r q hcomp l]
      simp [hx]
    · have hx' : q x = false := by simpa using hx
      rw [List.insertionSort, filter_orderedInsert_neg r q x hx',
        filter_insertionSort_eq r q hcomp l]
      simp [hx']

/-- C4: with empty search text and empty date bounds, sort order
"purchasedAtDesc" returns a permutation of the records, sorted by purchase date
descending, with every same-date tie class kept in input order (stability); and
any sort order other than the three supported ones leaves the list unchanged. -/
theorem applyQuery_spec (records : List Product) :
    (applyQuery records "" "" "" "purchasedAtDesc").Perm records ∧
    List.Sorted (fun a b => b.purchasedAt ≤ a.purchasedAt)
      (applyQuery records "" "" "" "purchasedAtDesc") ∧
    (∀ d : String,
      (applyQuery records "" "" "" "purchasedAtDesc").filter (fun p => p.purchasedAt == d) =
        records.filter (fun p => p.purchasedAt == d)) ∧
    (∀ s : String, s ≠ "purchasedAtDesc" → s ≠ "priceAsc" → s ≠ "priceDesc" →
      applyQuery records "" "" "" s = records) := by
  have happly : applyQuery records "" "" "" "purchasedAtDesc" =
      records.insertionSort (fun a b => b.purchasedAt ≤ a.purchasedAt) := rfl
  refine ⟨?_, ?_, ?_, ?_⟩
  · rw [happly]
    exact List.perm_insertionSort _ _
  · rw [happly]
    exact List.sorted_insertionSort _ _
  · intro d
    rw [happly]
    refine filter_insertionSort_eq _ _ (fun x y hx hr => ?_) records
    have hxd : x.purchasedAt = d := by simpa using hx
    have hyd : y.purchasedAt ≠ d := fun he => hr (by rw [hxd, he])
    simpa using hyd
  · have he : ∀ t : String, applyQuery records "" "" "" t =
        (match t with
          | "purchasedAtDesc" =>
              records.insertionSort (fun a b => b.purchasedAt ≤ a.purchasedAt)
          | "priceAsc" => records.insertionSort (fun a b => a.price ≤ b.price)
          | "priceDesc" => records.insertionSort (fun a b => b.price ≤ a.price)
          | _ => records.insertionSort (fun _ _ => True)) := fun _ => rfl
    intro s h1 h2 h3
    rw [he s]
    split <;> simp_all [insertionSort_true]

/-- C4 witness: an unsupported sort order keeps a concrete list unchanged. -/
theorem applyQuery_spec_witness :
    applyQuery [sampleProduct "2024-01-05" "001", sampleProduct "2024-01-04" "002"]
      "" "" "" "zzz" =
      [sampleProduct "2024-01-05" "001", sampleProduct "2024-01-04" "002"] :=
  (applyQuery_spec [sampleProduct "2024-01-05" "001", sampleProduct "2024-01-04" "002"]).2.2.2
    "zzz" (by decide) (by decide) (by decide)

/-! ## C5: overwrite-mode JSON import -/

theorem storeAdd_map_snd (s : Store) (e : Option Int) (p : Product) :
    (storeAdd s e p).map Prod.snd = s.map Prod.snd ++ [p] := by
  cases e <;> simp [storeAdd]

theorem foldl_storeAdd_map_snd (decode : String → Blob) :
    ∀ (items : List ImportItem) (st : Store),
      ((items.foldl (fun st it => storeAdd st (truthyId it.id) (convertItem decode it))
          st).map Prod.snd) = st.map Prod.snd ++ items.map (convertItem decode)
  | [], st => by simp
  | it :: items, st => by
    rw [List.foldl_cons, foldl_storeAdd_map_snd decode items _, storeAdd_map_snd]
    simp

/-- C5 counterexample: the element's `id` field is present (0), yet the
overwrite import does not keep it — `if (item.id)` treats 0 as falsy, so the record is
stored under the fresh store-assigned id 1, not under 0. -/
theorem handleImportJSON_idZero_counterexample :
    (handleImportJSON (fun _ => []) true [importItemIdZero] []).map Prod.fst = [1] ∧
    (handleImportJSON (fun _ => []) true [importItemIdZero] []).map Prod.fst ≠ [0] := by
  constructor <;> decide

/-- C5 (amended): overwrite import ignores the prior store contents (clear
first), adds exactly one record per element in order (each element appended via
`storeAdd`, keeping the element's id only when it is truthy — present and
non-zero — and otherwise taking the fresh store-assigned id), and an element's
image is the decoded blob exactly when its image field is a string with the
inline-data prefix, null for every other value. -/
theorem handleImportJSON_overwrite_spec (decode : String → Blob)
    (items : List ImportItem) (s : Store) :
    handleImportJSON decode true items s = handleImportJSON decode true items [] ∧
    (handleImportJSON decode true items s).map Prod.snd =
      items.map (convertItem decode) ∧
    (∀ (pre : List ImportItem) (it : ImportItem),
      handleImportJSON decode true (pre ++ [it]) s =
        storeAdd (handleImportJSON decode true pre s) (truthyId it.id)
          (convertItem decode it)) ∧
    (∀ t : String, jsStartsWith t "data:" = true →
      convertImageField decode (.str t) = some (decode t)) ∧
    (∀ img : JsonImage, (∀ t, img = .str t → jsStartsWith t "data:" = false) →
      convertImageField decode img = none) := by
  refine ⟨rfl, ?_, ?_, ?_, ?_⟩
  · have h := foldl_storeAdd_map_snd decode items []
    simpa [handleImportJSON] using h
  · intro pre it
    simp [handleImportJSON, List.foldl_append]
  · intro t ht
    have hne : t ≠ "" := by
      intro he
      rw [he] at ht
      exact absurd ht (by decide)
    simp [convertImageField, hne, ht]
  · intro img himg
    cases img with
    | missing => rfl
    | other => rfl
    | str t =>
      by_cases he : t = ""
      · simp [convertImageField, he]
      · simp [convertImageField, he, himg t rfl]

/-- C5 witness: a "data:"-prefixed image string is decoded into a blob. -/
theorem handleImportJSON_overwrite_spec_witness :
    convertImageField (fun _ => ([] : Blob)) (.str "data:image/jpeg;base64,abc") = some [] :=
  (handleImportJSON_overwrite_spec (fun _ => []) [] []).2.2.2.1
    "data:image/jpeg;base64,abc" (by decide)

/-! ## C6: a failing add aborts the rest of the import, no rollback -/

/-- C6: if the adds for the first records succeed (reaching store state `s1`)
and adding the next record fails, the import loop stops with exactly `s1` —
the already-added records remain, nothing after the failing record is added —
and the outcome is the single generic failure alert, which carries no
per-record detail. -/
theorem runImportLoop_partial_failure (addOp : ImportItem → Store → Except Unit Store)
    (x : ImportItem) (post : List ImportItem) (s1 : Store)
    (hx : addOp x s1 = .error ()) :
    ∀ (pre : List ImportItem) (s : Store), runSeq addOp pre s = .ok s1 →
      runImportLoop addOp (pre ++ x :: post) s = (s1, .genericFailure)
  | [], s, hpre => by
    obtain rfl : s = s1 := by simpa [runSeq] using hpre
    simp [runImportLoop, hx]
  | p :: pre, s, hpre => by
    rw [List.cons_append]
    cases hp : addOp p s with
    | error e =>
      simp only [runSeq, hp] at hpre
      exact Except.noConfusion hpre
    | ok st' =>
      simp only [runSeq, hp] at hpre
      simp only [runImportLoop, hp]
      exact runImportLoop_partial_failure addOp x post s1 hx pre st' hpre

/-- C6 witness: with items [good, bad, after], the loop keeps the record added
for "good", never adds "after", and reports the generic failure. -/
theorem runImportLoop_partial_failure_witness :
    runImportLoop addOpW
      [itemGood, { itemGood with name := "bad" }, { itemGood with name := "after" }] [] =
      ([(1, convertItem (fun _ => []) itemGood)], .genericFailure) :=
  runImportLoop_partial_failure addOpW { itemGood with name := "bad" }
    [{ itemGood with name := "after" }] [(1, convertItem (fun _ => []) itemGood)]
    rfl [itemGood] [] rfl

/-! ## C7 and C10: CSV export -/

/-- C7: the scenario record exports as exactly
`2024-03-01,001,"A""B",2,"1,500",USD` — name quote-wrapped with the internal
quote doubled, price thousands-grouped and quote-wrapped — and the full file is
the byte-order mark, the fixed six-column header, then that row. -/
theorem csvExport_scenario :
    csvRow csvScenarioRecord = "2024-03-01,001,\"A\"\"B\",2,\"1,500\",USD" ∧
    csvFile [csvScenarioRecord] =
      "\uFEFF仕入れ日,商品番号,商品名,個数,価格,通貨\n2024-03-01,001,\"A\"\"B\",2,\"1,500\",USD" := by
  constructor <;> decide

/-- C10: a record with quantity 0 renders its CSV quantity cell as the empty
string (`0 || ""`), so its row is byte-identical to the row of the same record
with quantity absent — zero and "not tracked" cannot be distinguished in the
CSV output. -/
theorem csvQuantityZero_indistinguishable (p : Product) :
    csvRow { p with quantity := some 0 } = csvRow { p with quantity := none } ∧
    quantityCell (some 0) = "" ∧ quantityCell none = "" := by
  refine ⟨?_, rfl, rfl⟩
  simp [csvRow, quantityCell]

/-! ## C8: product-code normalization at save time -/

/-- C8 counterexample: a form field holding "1234" is saved as "1234" — four
characters, not the exactly-three-digit string the claim asserts
(`padStart(3, "0")` never truncates). -/
theorem productCode_fourDigit_counterexample :
    (handleSubmitRecord (fun _ => []) formFourDigits none none).productCode = "1234" ∧
    (handleSubmitRecord (fun _ => []) formFourDigits none none).productCode.length ≠ 3 := by
  constructor <;> decide

/-- C8 (amended): the stored productCode is `String(parseInt(field) || 0)`
zero-padded to at least three digits ("001" for an empty field); it is exactly
3 ASCII digits whenever the parsed value lies in 0..999, while a field parsing
to 1000 or more keeps all its digits (4 or more — the padding convention
overflows rather than erroring). -/
theorem handleSubmit_productCode_normalized (resize : JsFile → Blob) (form : FormState)
    (imageFile : Option JsFile) (product : Option Product) :
    (form.productCode = "" →
      (handleSubmitRecord resize form imageFile product).productCode = "001") ∧
    (0 ≤ jsParseIntOr0 form.productCode → jsParseIntOr0 form.productCode ≤ 999 →
      (handleSubmitRecord resize form imageFile product).productCode.length = 3 ∧
      (handleSubmitRecord resize form imageFile product).productCode.data.all
        Char.isDigit = true) := by
  have hpc : (handleSubmitRecord resize form imageFile product).productCode =
      normalizedProductCode form.productCode := rfl
  constructor
  · intro h
    rw [hpc, h]
    rfl
  · intro h0 h999
    rw [hpc]
    unfold normalizedProductCode
    by_cases he : form.productCode.isEmpty
    · rw [if_pos he]
      exact ⟨rfl, rfl⟩
    · rw [if_neg he, intDec_of_nonneg h0]
      have hlt : (jsParseIntOr0 form.productCode).toNat < 1000 := by omega
      exact ⟨padStart_length_three (natDec_length_le_three hlt),
        padStart_all_isDigit (natDec_all_isDigit _)⟩

/-- C8 witness: the empty field stores "001"; the field "7" stores a
three-digit all-ASCII-digit code. -/
theorem handleSubmit_productCode_normalized_witness :
    (handleSubmitRecord (fun _ => []) formEmptyCode none none).productCode = "001" ∧
    (handleSubmitRecord (fun _ => []) { formEmptyCode with productCode := "7" }
      none none).productCode.length = 3 :=
  ⟨(handleSubmit_productCode_normalized (fun _ => []) formEmptyCode none none).1 rfl,
    ((handleSubmit_productCode_normalized (fun _ => [])
      { formEmptyCode with productCode := "7" } none none).2 (by decide) (by decide)).1⟩

/-! ## C9: editing without choosing a new file keeps the stored image -/

/-- C9: when no new image file is chosen during an edit, the saved record's
image is exactly the existing product's stored image (never cleared, never
altered), while every other field comes from the form through the save-time
conversions. -/
theorem handleSubmit_keepsImage (resize : JsFile → Blob) (form : FormState) (p : Product) :
    (handleSubmitRecord resize form none (some p)).image = p.image ∧
    (handleSubmitRecord resize form none (some p)).purchasedAt = form.purchasedAt ∧
    (handleSubmitRecord resize form none (some p)).productCode =
      normalizedProductCode form.productCode ∧
    (handleSubmitRecord resize form none (some p)).name = form.name ∧
    (handleSubmitRecord resize form none (some p)).price = jsParseFloatQ form.price ∧
    (handleSubmitRecord resize form none (some p)).quantity =
      (if form.quantity.isEmpty then none else some (jsParseIntOr0 form.quantity)) ∧
    (handleSubmitRecord resize form none (some p)).currency = some form.currency :=
  ⟨rfl, rfl, rfl, rfl, rfl, rfl, rfl⟩

end ProductsMgmt
